import Mathlib

/-!
Verification of the IntelliAgent repository against its natural-language
specification.  Each Python module named by a claim is shallowly embedded:
pure methods become Lean functions, stateful methods become explicit
state-passing functions on a state structure, Python floats are modelled by
rationals (by reals where a transcendental function, numpy log2, appears),
wall-clock time and uuid generation are passed as explicit parameters.
-/

/-! ## Python values (src/intelliagent/core/explainability.py)

Context dictionaries hold arbitrary Python values; the explainability engine
only ever inspects their type, their length and (for strings) the stripped
text, so aggregate values are carried with exactly that information. -/

/-- A Python value as inspected by the explainability engine.  Dictionary and
list/tuple values are carried by their length, the only thing the engine reads
from them. -/
inductive PyVal where
  | pyNone
  | pyBool (b : Bool)
  | pyInt (n : ℤ)
  | pyFloat (q : ℚ)
  | pyStr (s : String)
  | pyDict (size : ℕ)
  | pyList (size : ℕ)
  | pyOther
deriving DecidableEq

/-- Python `isinstance(value, (int, float))`.  Note that Python `bool` is a
subclass of `int`, so boolean values satisfy this test. -/
def isInstIntOrFloat : PyVal → Bool
  | .pyBool _ => true
  | .pyInt _ => true
  | .pyFloat _ => true
  | _ => false

/-- Python `isinstance(value, bool)`. -/
def isInstBool : PyVal → Bool
  | .pyBool _ => true
  | _ => false

/-- Python `isinstance(value, dict)`. -/
def isInstDict : PyVal → Bool
  | .pyDict _ => true
  | _ => false

/-- Python substring test `needle in hay`. -/
def strContains (hay needle : String) : Bool :=
  decide (List.IsInfix needle.toList hay.toList)

/-- Python `str.lower()` (ASCII, character by character). -/
def pyLower (s : String) : String :=
  String.mk (s.toList.map Char.toLower)

/-- The `important_keywords` set of `_calculate_factor_weight`. -/
def importantKeywords : List String :=
  ["priority", "critical", "essential", "key", "main"]

/-- ExplainabilityEngine._calculate_factor_weight.  The `elif isinstance(value,
bool)` branch is unreachable in Python (bool is a subclass of int) and is kept
verbatim. -/
def calculate_factor_weight (key : String) (value : PyVal) : ℚ :=
  let type_weight : ℚ :=
    if isInstIntOrFloat value then 1 * (6 / 5)
    else if isInstBool value then 1 * (11 / 10)
    else if isInstDict value then 1 * (13 / 10)
    else 1
  if importantKeywords.any (fun kw => strContains (pyLower key) kw) then
    type_weight * (3 / 2)
  else type_weight

/-- ExplainabilityEngine._calculate_factor_confidence (Python `str.strip` is
rendered by `String.trim`). -/
def calculate_factor_confidence : PyVal → ℚ
  | .pyNone => 0
  | .pyBool _ => 1
  | .pyInt _ => 1
  | .pyFloat _ => 1
  | .pyStr s => if s.trim = "" then 0 else min 1 ((s.trim.toList.length : ℚ) / 100)
  | .pyDict n => min 1 ((n : ℚ) / 5)
  | .pyList n => min 1 ((n : ℚ) / 10)
  | .pyOther => 1 / 2

/-- ExplainabilityEngine._categorize_factor. -/
def categorize_factor (key : String) (value : PyVal) : String :=
  let kl := pyLower key
  if ["time", "date", "duration", "period"].any (fun w => strContains kl w) then "temporal"
  else if isInstIntOrFloat value then "numerical"
  else if ["status", "state", "condition"].any (fun w => strContains kl w) then "state"
  else if ["user", "person", "client"].any (fun w => strContains kl w) then "user"
  else "general"

/-- The ContextFactor dataclass. -/
structure ContextFactor where
  name : String
  value : PyVal
  influence_score : ℚ
  confidence : ℚ
  category : String
deriving DecidableEq

/-- ExplainabilityEngine._analyze_context_influence: build one factor per
context key with its raw weight, then divide every influence score by the
total weight when that total is positive.  The context dictionary is carried
as its list of key/value items. -/
def analyze_context_influence (context : List (String × PyVal)) :
    List (String × ContextFactor) :=
  let factors := context.map (fun kv =>
    (kv.1, { name := kv.1
             value := kv.2
             influence_score := calculate_factor_weight kv.1 kv.2
             confidence := calculate_factor_confidence kv.2
             category := categorize_factor kv.1 kv.2 : ContextFactor }))
  let total_weight := (context.map (fun kv => calculate_factor_weight kv.1 kv.2)).sum
  if 0 < total_weight then
    factors.map (fun kf => (kf.1, { kf.2 with influence_score := kf.2.influence_score / total_weight }))
  else factors

/-! ## The Explanation dataclass construction (C4)

A Python dataclass call succeeds exactly when every declared field is either
passed as an argument or has a default value; otherwise the interpreter raises
TypeError before any object exists. -/

/-- Model of a Python dataclass constructor call: it succeeds iff every field
is passed or defaulted. -/
def dataclassCallSucceeds (fields defaulted args : List String) : Bool :=
  fields.all (fun f => args.contains f || defaulted.contains f)

/-- The fields of the Explanation dataclass, in declaration order. -/
def explanationFields : List String :=
  ["decision_id", "reasoning_steps", "evidence", "confidence", "metadata",
   "timestamp", "context_influence", "key_factors"]

/-- The Explanation fields that carry a default value: none do. -/
def explanationDefaultedFields : List String := []

/-- The keyword arguments of the `Explanation(...)` call inside
ExplainabilityEngine.generate_explanation (`key_factors` is absent). -/
def generateExplanationCallArgs : List String :=
  ["decision_id", "reasoning_steps", "evidence", "confidence", "metadata",
   "timestamp", "context_influence"]

/-! ## UncertaintyHandler (src/intelliagent/core/uncertainty_handler.py)

Prediction lists are modelled over the reals: the entropy metric applies
numpy log2, so an idealized real-number semantics replaces IEEE floats. -/

/-- numpy mean of a list. -/
noncomputable def npMean (l : List ℝ) : ℝ := l.sum / l.length

/-- numpy population variance of a list. -/
noncomputable def npVar (l : List ℝ) : ℝ :=
  ((l.map (fun p => (p - npMean l) ^ 2)).sum) / l.length

/-- numpy max of a (nonempty) list; 0 on the empty list, which the code never
reaches. -/
noncomputable def npMax : List ℝ → ℝ
  | [] => 0
  | [x] => x
  | x :: y :: xs => max x (npMax (y :: xs))

/-- numpy min of a (nonempty) list; 0 on the empty list, which the code never
reaches. -/
noncomputable def npMin : List ℝ → ℝ
  | [] => 0
  | [x] => x
  | x :: y :: xs => min x (npMin (y :: xs))

/-- The entropy expression `-np.sum(preds * np.log2(preds + 1e-10))`. -/
noncomputable def npEntropy (l : List ℝ) : ℝ :=
  -((l.map (fun p => p * Real.logb 2 (p + 1 / 10000000000))).sum)

/-- The UncertaintyMetrics dataclass. -/
structure UncertaintyMetrics where
  confidence_score : ℝ
  entropy : ℝ
  variance : ℝ
  prediction_spread : ℝ

/-- UncertaintyHandler._calculate_metrics. -/
noncomputable def calculate_metrics (predictions : List ℝ) : UncertaintyMetrics :=
  { confidence_score := npMean predictions
    entropy := npEntropy predictions
    variance := npVar predictions
    prediction_spread := npMax predictions - npMin predictions }

/-- UncertaintyHandler._compute_uncertainty_score: the fixed weights 0.4 /
0.2 / 0.2 / 0.2 applied to the transformed metrics, with the final clamp
`min(1.0, max(0.0, score))`. -/
noncomputable def compute_uncertainty_score (metrics : UncertaintyMetrics) : ℝ :=
  let score :=
    (4 / 10) * (1 - metrics.confidence_score) +
    (2 / 10) * min 1 metrics.entropy +
    (2 / 10) * min 1 (metrics.variance * 2) +
    (2 / 10) * metrics.prediction_spread
  min 1 (max 0 score)

/-- The details dictionary returned by evaluate_uncertainty: either the error
dictionary of the empty-predictions branch, or the metrics report.  The
`context_factors` entry is time-dependent (`_analyze_context_uncertainty`
reads the wall clock), so the report carries the raw context it would be
computed from; no claim inspects that entry. -/
inductive UncertaintyDetails (κ : Type) where
  | failure (msg : String)
  | report (confidence entropy variance prediction_spread : ℝ)
      (context_factors_input : κ) (threshold : ℝ)

/-- UncertaintyHandler.evaluate_uncertainty. -/
noncomputable def evaluate_uncertainty {κ : Type} (confidence_threshold : ℝ)
    (predictions : List ℝ) (context : κ) : ℝ × UncertaintyDetails κ :=
  if predictions = [] then (1, .failure "No predictions available")
  else
    let metrics := calculate_metrics predictions
    (compute_uncertainty_score metrics,
     .report metrics.confidence_score metrics.entropy metrics.variance
       metrics.prediction_spread context confidence_threshold)

/-! ## BeliefGenerator (src/intelliagent/core/belief_generator.py)

Wall-clock timestamps are passed as an explicit `now` parameter; the
`metadata={"context": context}` wrapper dictionary is carried as the context
value itself (the generator never reads inside it). -/

/-- The Belief dataclass. -/
structure Belief (μ : Type) where
  statement : String
  confidence : ℚ
  evidence : List String
  timestamp : ℕ
  source : String
  metadata : μ
deriving DecidableEq

/-- The BeliefGenerator state. -/
structure BeliefGenerator (μ : Type) where
  confidence_threshold : ℚ
  beliefs : List (Belief μ)

/-- BeliefGenerator._calculate_confidence (the statement argument is unused in
the source as well). -/
def calculate_confidence (statement : String) (evidence : List String) : ℚ :=
  if evidence = [] then 0
  else min (1 / 2 + (evidence.length : ℚ) * (1 / 10)) (19 / 20)

/-- BeliefGenerator.generate_belief: returns the new belief and the new
generator state (the belief is appended only when its confidence reaches the
threshold). -/
def generate_belief {μ : Type} (g : BeliefGenerator μ) (now : ℕ)
    (input_data : String) (context : μ) (evidence : List String) :
    Belief μ × BeliefGenerator μ :=
  let confidence := calculate_confidence input_data evidence
  let belief : Belief μ :=
    { statement := input_data, confidence := confidence, evidence := evidence,
      timestamp := now, source := "agent", metadata := context }
  if g.confidence_threshold ≤ confidence then
    (belief, { g with beliefs := g.beliefs ++ [belief] })
  else (belief, g)

/-- BeliefGenerator._find_belief: first belief whose statement matches
case-insensitively. -/
def find_belief {μ : Type} (beliefs : List (Belief μ)) (statement : String) :
    Option (Belief μ) :=
  beliefs.find? (fun b => pyLower b.statement == pyLower statement)

/-- BeliefGenerator.update_belief: on a match, build the updated belief from
the combined evidence, remove the old belief (Python list.remove drops the
first element equal to it) and append the new one. -/
def update_belief {μ : Type} [DecidableEq μ] (g : BeliefGenerator μ) (now : ℕ)
    (statement : String) (new_evidence : List String) :
    Option (Belief μ) × BeliefGenerator μ :=
  match find_belief g.beliefs statement with
  | none => (none, g)
  | some existing =>
    let all_evidence := existing.evidence ++ new_evidence
    let new_confidence := calculate_confidence statement all_evidence
    let updated : Belief μ :=
      { statement := statement, confidence := new_confidence,
        evidence := all_evidence, timestamp := now,
        source := existing.source, metadata := existing.metadata }
    (some updated, { g with beliefs := (g.beliefs.erase existing) ++ [updated] })

/-- BeliefGenerator.get_beliefs with an explicit minimum confidence. -/
def get_beliefs {μ : Type} (g : BeliefGenerator μ) (min_confidence : Option ℚ) :
    List (Belief μ) :=
  let threshold := min_confidence.getD g.confidence_threshold
  g.beliefs.filter (fun b => threshold ≤ b.confidence)

/-! ## ChainOfThought (src/intelliagent/core/chain_of_thought.py)

Thought contexts are dictionaries carried as association lists over a value
type `V`; uuid generation and wall-clock time are explicit parameters.  Every
method takes and returns the manager state, so purity of the read-only
methods is visible in the embedding. -/

/-- The Thought dataclass. -/
structure Thought (V : Type) where
  id : String
  content : String
  confidence : ℚ
  context : List (String × V)
  timestamp : ℕ
  previous_thought_id : Option String
deriving DecidableEq

/-- The ChainOfThought manager state. -/
structure ChainOfThought (V : Type) where
  thoughts : List (Thought V)
deriving DecidableEq

/-- ChainOfThought.add_thought: build the thought with a fresh
`thought_<uuid hex>` id and append it. -/
def add_thought {V : Type} (s : ChainOfThought V) (uuidHex : String) (now : ℕ)
    (content : String) (confidence : ℚ) (context : List (String × V))
    (previous_thought_id : Option String) : String × ChainOfThought V :=
  let thought_id := "thought_" ++ uuidHex
  let thought : Thought V :=
    { id := thought_id, content := content, confidence := confidence,
      context := context, timestamp := now,
      previous_thought_id := previous_thought_id }
  (thought_id, { s with thoughts := s.thoughts ++ [thought] })

/-- ChainOfThought._find_thought. -/
def find_thought {V : Type} (thoughts : List (Thought V)) (thought_id : String) :
    Option (Thought V) :=
  thoughts.find? (fun t => t.id == thought_id)

/-- The while loop of ChainOfThought.get_chain.  `chain.insert(0, thought)`
prepends, and the loop stops on a falsy id (None or the empty string), on a
missing thought, or - since Python would not terminate on a cyclic chain -
when the fuel runs out. -/
def get_chain_loop {V : Type} (thoughts : List (Thought V)) :
    Option String → ℕ → List (Thought V) → List (Thought V)
  | _, 0, acc => acc
  | none, _ + 1, acc => acc
  | some tid, fuel + 1, acc =>
    if tid = "" then acc
    else
      match find_thought thoughts tid with
      | none => acc
      | some t => get_chain_loop thoughts t.previous_thought_id fuel (t :: acc)

/-- ChainOfThought.get_chain: a falsy target id returns the whole list. -/
def get_chain {V : Type} (s : ChainOfThought V) (thought_id : Option String)
    (fuel : ℕ) : List (Thought V) × ChainOfThought V :=
  if thought_id = none ∨ thought_id = some "" then (s.thoughts, s)
  else (get_chain_loop s.thoughts thought_id fuel [], s)

/-- One per-key entry of ChainOfThought._compare_contexts. -/
inductive CtxChange (V : Type) where
  | added (v : V)
  | removed (v : V)
  | changed (oldVal newVal : V)
deriving DecidableEq

/-- ChainOfThought._compare_contexts.  Python iterates an unordered key set;
the embedding fixes the order: keys of the first context, then new keys of the
second. -/
def compare_contexts {V : Type} [DecidableEq V] (c1 c2 : List (String × V)) :
    List (String × CtxChange V) :=
  let keys1 := (c1.map Prod.fst).dedup
  let keys2 := (c2.map Prod.fst).dedup
  let all_keys := keys1 ++ keys2.filter (fun k => ¬ keys1.contains k)
  all_keys.filterMap (fun k =>
    match List.lookup k c1, List.lookup k c2 with
    | none, some v => some (k, .added v)
    | some v, none => some (k, .removed v)
    | some v1, some v2 => if v1 = v2 then none else some (k, .changed v1 v2)
    | none, none => none)

/-- The context_evolution loop of ChainOfThought.analyze_chain: adjacent
pairs, keyed `step_<i+1>`, keeping only nonempty change sets. -/
def context_evolution_from {V : Type} [DecidableEq V] :
    List (Thought V) → ℕ → List (String × List (String × CtxChange V))
  | t1 :: t2 :: rest, i =>
    let changes := compare_contexts t1.context t2.context
    let tail := context_evolution_from (t2 :: rest) (i + 1)
    if changes = [] then tail else ("step_" ++ toString (i + 1), changes) :: tail
  | _, _ => []

/-- The analysis dictionary returned by ChainOfThought.analyze_chain. -/
structure ChainAnalysis (V : Type) where
  length : ℕ
  average_confidence : ℚ
  context_evolution : List (String × List (String × CtxChange V))
deriving DecidableEq

/-- ChainOfThought.analyze_chain. -/
def analyze_chain {V : Type} [DecidableEq V] (s : ChainOfThought V)
    (thought_chain : List (Thought V)) : ChainAnalysis V × ChainOfThought V :=
  if thought_chain = [] then
    ({ length := 0, average_confidence := 0, context_evolution := [] }, s)
  else
    let confidences := thought_chain.map (fun t => t.confidence)
    let avg := confidences.sum / confidences.length
    ({ length := thought_chain.length, average_confidence := avg,
       context_evolution := context_evolution_from thought_chain 0 }, s)

/-! ## CacheManager (src/intelliagent/utils/cache_manager.py)

The in-memory dictionary is an association list keyed by strings; timestamps
and ttl values are rational numbers of seconds, and `now` is an explicit
parameter.  The `_save_cache` disk mirror is outside the model. -/

/-- One cache entry: value, creation timestamp, time to live (seconds). -/
structure CacheEntry (α : Type) where
  value : α
  timestamp : ℚ
  ttl : ℚ
deriving DecidableEq

/-- CacheManager._is_valid: the age in seconds is strictly below the ttl. -/
def cache_is_valid {α : Type} (now : ℚ) (entry : CacheEntry α) : Bool :=
  decide (now - entry.timestamp < entry.ttl)

/-- CacheManager._remove: `dict.pop(key, None)`. -/
def cache_remove {α : Type} (cache : List (String × CacheEntry α)) (key : String) :
    List (String × CacheEntry α) :=
  cache.eraseP (fun p => p.1 == key)

/-- CacheManager.get: a present, valid entry returns its value; a present,
expired entry is removed and None is returned; an absent key returns None. -/
def cache_get {α : Type} (now : ℚ) (cache : List (String × CacheEntry α))
    (key : String) : Option α × List (String × CacheEntry α) :=
  match List.lookup key cache with
  | some entry =>
      if cache_is_valid now entry then (some entry.value, cache)
      else (none, cache_remove cache key)
  | none => (none, cache)

/-! ## AsyncDecisionMaker (src/intelliagent/core/async_decision_maker.py)

User contexts are an association list from user id to a string dictionary;
`{}` is the empty list.  The method bodies contain no await point that
modifies state, so each returns its result together with the unchanged
state. -/

/-- The AsyncDecisionMaker state. -/
structure AsyncDecisionMaker where
  api_key : String
  model : String
  domain : String
  continuous_learning : Bool
  user_contexts : List (String × List (String × String))
deriving DecidableEq

/-- The dictionary returned by AsyncDecisionMaker.make_decision. -/
structure DecisionResult where
  decision : String
  context : List (String × String)
deriving DecidableEq

/-- The dictionary returned by AsyncDecisionMaker.update_model. -/
structure UpdateModelResult where
  status : String
  context : List (String × String)
deriving DecidableEq

/-- AsyncDecisionMaker.make_decision. -/
def make_decision (s : AsyncDecisionMaker) (user_id : String)
    (input_data : String) : DecisionResult × AsyncDecisionMaker :=
  let context := (List.lookup user_id s.user_contexts).getD []
  ({ decision := "Not implemented yet", context := context }, s)

/-- AsyncDecisionMaker.update_model. -/
def update_model (s : AsyncDecisionMaker) (user_id : String)
    (feedback : String) : UpdateModelResult × AsyncDecisionMaker :=
  let context := (List.lookup user_id s.user_contexts).getD []
  ({ status := "success", context := context }, s)

/-! ## RateLimiter (src/intelliagent/utils/rate_limiter.py)

The per-user request list is modelled directly (check_limit touches only the
entry of the requesting user); times are rational seconds and `now` is an
explicit parameter.  One minute is 60 seconds. -/

/-- RateLimiter._cleanup_old_requests: keep requests strictly newer than one
minute ago. -/
def cleanup_old_requests (now : ℚ) (requests : List ℚ) : List ℚ :=
  requests.filter (fun req => decide (now - 60 < req))

/-- RateLimiter.check_limit for one user: prune, refuse on the burst limit,
refuse on the rate limit over the last minute, otherwise record `now` and
accept. -/
def check_limit (burst_limit rate_limit : ℕ) (now : ℚ) (requests : List ℚ) :
    Bool × List ℚ :=
  let requests := cleanup_old_requests now requests
  if burst_limit ≤ requests.length then (false, requests)
  else
    let recent := requests.filter (fun req => decide (now - 60 < req))
    if rate_limit ≤ recent.length then (false, requests)
    else (true, requests ++ [now])

/-- A sequence of check_limit calls at the given times, returning each call
time paired with its verdict, and the final request list. -/
def run_limiter (burst_limit rate_limit : ℕ) :
    List ℚ → List ℚ → List (ℚ × Bool) × List ℚ
  | [], requests => ([], requests)
  | t :: ts, requests =>
    let step := check_limit burst_limit rate_limit t requests
    let rest := run_limiter burst_limit rate_limit ts step.2
    ((t, step.1) :: rest.1, rest.2)

/-! ## Theorems -/

/-- Every factor weight is at least 1: the base weight is 1 and every
adjustment multiplies by a factor above 1. -/
theorem one_le_calculate_factor_weight (key : String) (value : PyVal) :
    1 ≤ calculate_factor_weight key value := by
  simp only [calculate_factor_weight]
  split_ifs <;> norm_num

/-- The total weight of a nonempty context is positive. -/
theorem sum_weights_pos (context : List (String × PyVal)) (h : context ≠ []) :
    0 < (context.map (fun kv => calculate_factor_weight kv.1 kv.2)).sum := by
  cases context with
  | nil => exact absurd rfl h
  | cons kv rest =>
    have h1 := one_le_calculate_factor_weight kv.1 kv.2
    have h2 : 0 ≤ (rest.map (fun kv => calculate_factor_weight kv.1 kv.2)).sum := by
      apply List.sum_nonneg
      intro x hx
      obtain ⟨kv2, _, rfl⟩ := List.mem_map.mp hx
      linarith [one_le_calculate_factor_weight kv2.1 kv2.2]
    simp only [List.map_cons, List.sum_cons]
    linarith

/-- Summing a list after dividing each mapped value by a constant divides the
mapped sum by that constant. -/
theorem list_sum_map_div {α : Type} (l : List α) (f : α → ℚ) (c : ℚ) :
    (l.map (fun x => f x / c)).sum = (l.map f).sum / c := by
  induction l with
  | nil => simp
  | cons x xs ih => simp [ih, add_div]

/-- C1: for every nonempty context dictionary, _analyze_context_influence
returns one factor per context key (in order, so each key appears exactly
once) and the influence scores sum to 1. -/
theorem context_influence_keys_and_sum (context : List (String × PyVal))
    (h : context ≠ []) :
    (analyze_context_influence context).map Prod.fst = context.map Prod.fst ∧
    ((analyze_context_influence context).map
      (fun p => p.2.influence_score)).sum = 1 := by
  have hpos := sum_weights_pos context h
  unfold analyze_context_influence
  rw [if_pos hpos]
  constructor
  · simp [List.map_map, Function.comp]
  · rw [List.map_map, List.map_map]
    simp only [Function.comp_def]
    rw [list_sum_map_div]
    exact div_self (ne_of_gt hpos)

/-- Witness for C1 at the singleton context `{"temperature": 25}`. -/
theorem context_influence_keys_and_sum_witness :
    ([("temperature", PyVal.pyInt 25)] : List (String × PyVal)) ≠ [] ∧
    ((analyze_context_influence [("temperature", PyVal.pyInt 25)]).map Prod.fst =
        [("temperature", PyVal.pyInt 25)].map Prod.fst ∧
      ((analyze_context_influence [("temperature", PyVal.pyInt 25)]).map
        (fun p => p.2.influence_score)).sum = 1) :=
  ⟨by decide, context_influence_keys_and_sum _ (by decide)⟩

/-- C4: the `Explanation(...)` call inside generate_explanation omits the
required field key_factors, so the dataclass construction fails (Python
raises TypeError on every call instead of storing and returning an
Explanation). -/
theorem generate_explanation_constructor_fails :
    dataclassCallSucceeds explanationFields explanationDefaultedFields
      generateExplanationCallArgs = false := by decide

/-- C3: the confidence of a generated belief is 0 on empty evidence and
otherwise min(0.5 + 0.1 * len(evidence), 0.95), for any statement and
context; an updated belief gets the same formula applied to the combined
evidence of the matched belief. -/
theorem belief_confidence_from_evidence_count {μ : Type} [DecidableEq μ]
    (g : BeliefGenerator μ) (now : ℕ) (input_data : String) (context : μ)
    (evidence : List String) (statement : String) (new_evidence : List String) :
    ((generate_belief g now input_data context evidence).1.confidence =
      if evidence = [] then 0
      else min (1 / 2 + (evidence.length : ℚ) * (1 / 10)) (19 / 20)) ∧
    ((update_belief g now statement new_evidence).1.map Belief.confidence =
      (find_belief g.beliefs statement).map (fun existing =>
        if existing.evidence ++ new_evidence = [] then 0
        else min (1 / 2 + ((existing.evidence ++ new_evidence).length : ℚ) * (1 / 10))
          (19 / 20))) := by
  constructor
  · simp only [generate_belief, calculate_confidence]
    split_ifs <;> rfl
  · cases hf : find_belief g.beliefs statement with
    | none => simp [update_belief, hf]
    | some existing => simp [update_belief, hf, calculate_confidence]

/-- C5: update_belief with a case-insensitive match removes the matched
belief and appends exactly one new belief carrying the combined evidence and
the old source and metadata; with no match it returns None and leaves the
belief list unchanged. -/
theorem update_belief_replaces {μ : Type} [DecidableEq μ]
    (g : BeliefGenerator μ) (now : ℕ) (statement : String)
    (new_evidence : List String) :
    (find_belief g.beliefs statement = none →
      update_belief g now statement new_evidence = (none, g)) ∧
    (∀ existing, find_belief g.beliefs statement = some existing →
      ∃ b, update_belief g now statement new_evidence =
          (some b, { g with beliefs := (g.beliefs.erase existing) ++ [b] }) ∧
        b.evidence = existing.evidence ++ new_evidence ∧
        b.source = existing.source ∧
        b.metadata = existing.metadata) := by
  constructor
  · intro hf
    simp [update_belief, hf]
  · intro existing hf
    refine ⟨⟨statement,
        calculate_confidence statement (existing.evidence ++ new_evidence),
        existing.evidence ++ new_evidence, now, existing.source,
        existing.metadata⟩, ?_, rfl, rfl, rfl⟩
    simp [update_belief, hf]

/-- Witness for C5: one matching call (statement differs only in case) and
one non-matching call on a one-belief generator. -/
theorem update_belief_replaces_witness :
    (find_belief ([⟨"Sky Is Blue", 1, ["e1"], 0, "agent", "m"⟩] :
        List (Belief String)) "unknown" = none ∧
      update_belief (⟨1, [⟨"Sky Is Blue", 1, ["e1"], 0, "agent", "m"⟩]⟩ :
          BeliefGenerator String) 7 "unknown" ["e2"] =
        (none, ⟨1, [⟨"Sky Is Blue", 1, ["e1"], 0, "agent", "m"⟩]⟩)) ∧
    (find_belief ([⟨"Sky Is Blue", 1, ["e1"], 0, "agent", "m"⟩] :
        List (Belief String)) "sky is blue" =
        some ⟨"Sky Is Blue", 1, ["e1"], 0, "agent", "m"⟩ ∧
      ∃ b, update_belief (⟨1, [⟨"Sky Is Blue", 1, ["e1"], 0, "agent", "m"⟩]⟩ :
            BeliefGenerator String) 7 "sky is blue" ["e2"] =
          (some b,
            { (⟨1, [⟨"Sky Is Blue", 1, ["e1"], 0, "agent", "m"⟩]⟩ :
                BeliefGenerator String) with
              beliefs := (([⟨"Sky Is Blue", 1, ["e1"], 0, "agent", "m"⟩] :
                List (Belief String)).erase
                  ⟨"Sky Is Blue", 1, ["e1"], 0, "agent", "m"⟩) ++ [b] }) ∧
        b.evidence = ["e1"] ++ ["e2"] ∧
        b.source = "agent" ∧
        b.metadata = "m") :=
  ⟨⟨by decide, (update_belief_replaces _ 7 "unknown" ["e2"]).1 (by decide)⟩,
   ⟨by decide, (update_belief_replaces _ 7 "sky is blue" ["e2"]).2 _ (by decide)⟩⟩

/-- C6: add_thought appends exactly one new thought, leaving every stored
thought unchanged, and neither get_chain nor analyze_chain changes the
stored thoughts. -/
theorem chain_of_thought_only_grows {V : Type} [DecidableEq V]
    (s : ChainOfThought V) (uuidHex : String) (now : ℕ) (content : String)
    (confidence : ℚ) (context : List (String × V))
    (previous_thought_id : Option String) (thought_id : Option String)
    (fuel : ℕ) (thought_chain : List (Thought V)) :
    (add_thought s uuidHex now content confidence context
        previous_thought_id).2.thoughts =
      s.thoughts ++
        [⟨"thought_" ++ uuidHex, content, confidence, context, now,
          previous_thought_id⟩] ∧
    (get_chain s thought_id fuel).2 = s ∧
    (analyze_chain s thought_chain).2 = s := by
  refine ⟨rfl, ?_, ?_⟩
  · unfold get_chain
    split_ifs <;> rfl
  · unfold analyze_chain
    split_ifs <;> rfl

/-- C7: cache_get returns the stored value exactly when the key is present
and its age is strictly below its ttl; a present expired entry is removed
and None returned; an absent key returns None and leaves the cache
unchanged. -/
theorem cache_get_spec {α : Type} (now : ℚ)
    (cache : List (String × CacheEntry α)) (key : String) :
    (∀ e, List.lookup key cache = some e →
      (now - e.timestamp < e.ttl →
        cache_get now cache key = (some e.value, cache)) ∧
      (¬ now - e.timestamp < e.ttl →
        cache_get now cache key = (none, cache_remove cache key))) ∧
    (List.lookup key cache = none →
      cache_get now cache key = (none, cache)) := by
  constructor
  · intro e he
    constructor
    · intro hv
      simp [cache_get, he, cache_is_valid, hv]
    · intro hv
      simp [cache_get, he, cache_is_valid, hv]
  · intro he
    simp [cache_get, he]

/-- Witness for C7: a fresh entry is returned, an expired one is evicted, an
absent key changes nothing. -/
theorem cache_get_spec_witness :
    (List.lookup "k" ([("k", ⟨42, 0, 10⟩)] : List (String × CacheEntry ℕ)) =
        some ⟨42, 0, 10⟩ ∧
      (5 : ℚ) - 0 < 10 ∧
      cache_get 5 ([("k", ⟨42, 0, 10⟩)] : List (String × CacheEntry ℕ)) "k" =
        (some 42, [("k", ⟨42, 0, 10⟩)])) ∧
    (¬ (20 : ℚ) - 0 < 10 ∧
      cache_get 20 ([("k", ⟨42, 0, 10⟩)] : List (String × CacheEntry ℕ)) "k" =
        (none, cache_remove [("k", ⟨42, 0, 10⟩)] "k")) ∧
    (List.lookup "absent"
        ([("k", ⟨42, 0, 10⟩)] : List (String × CacheEntry ℕ)) = none ∧
      cache_get 5 ([("k", ⟨42, 0, 10⟩)] : List (String × CacheEntry ℕ)) "absent" =
        (none, [("k", ⟨42, 0, 10⟩)])) :=
  ⟨⟨rfl, by norm_num,
    ((cache_get_spec 5 [("k", ⟨42, 0, 10⟩)] "k").1 ⟨42, 0, 10⟩ rfl).1 (by norm_num)⟩,
   ⟨by norm_num,
    ((cache_get_spec 20 [("k", ⟨42, 0, 10⟩)] "k").1 ⟨42, 0, 10⟩ rfl).2 (by norm_num)⟩,
   ⟨rfl, (cache_get_spec 5 [("k", ⟨42, 0, 10⟩)] "absent").2 rfl⟩⟩

/-- C8: the AsyncDecisionMaker methods are stubs: make_decision returns the
placeholder decision with the stored user context (or the empty dictionary)
and update_model returns status success with that context; neither changes
the state. -/
theorem async_decision_maker_stubs (s : AsyncDecisionMaker)
    (user_id input_data feedback : String) :
    make_decision s user_id input_data =
      ({ decision := "Not implemented yet",
         context := (List.lookup user_id s.user_contexts).getD [] }, s) ∧
    update_model s user_id feedback =
      ({ status := "success",
         context := (List.lookup user_id s.user_contexts).getD [] }, s) :=
  ⟨rfl, rfl⟩

/-- C9: on an empty prediction list, evaluate_uncertainty returns score 1.0
with the error dictionary, for every threshold and every context. -/
theorem evaluate_uncertainty_empty {κ : Type} (confidence_threshold : ℝ)
    (context : κ) :
    evaluate_uncertainty confidence_threshold ([] : List ℝ) context =
      (1, UncertaintyDetails.failure "No predictions available") := by
  simp [evaluate_uncertainty]

/-- The metrics of a one-element prediction list. -/
theorem calculate_metrics_single (a : ℝ) :
    calculate_metrics [a] =
      ⟨a, -(a * Real.logb 2 (a + 1 / 10000000000)), 0, 0⟩ := by
  simp [calculate_metrics, npMean, npVar, npEntropy, npMax, npMin]

/-- On a nonempty prediction list the returned score is the composed score of
the computed metrics. -/
theorem evaluate_uncertainty_score_nonempty {κ : Type} (threshold : ℝ)
    (predictions : List ℝ) (context : κ) (h : predictions ≠ []) :
    (evaluate_uncertainty threshold predictions context).1 =
      compute_uncertainty_score (calculate_metrics predictions) := by
  simp [evaluate_uncertainty, h]

/-- The uncertainty score of the singleton list [0] is 0.4. -/
theorem uh_score_zero_list :
    compute_uncertainty_score (calculate_metrics [(0 : ℝ)]) = 4 / 10 := by
  rw [calculate_metrics_single 0]
  unfold compute_uncertainty_score
  norm_num

/-- The uncertainty score of a singleton [a] with a at least 1 is clamped to
0: the raw weighted sum is negative because the entropy term is negative and
the confidence term is nonpositive. -/
theorem uh_score_single_eq_zero (a : ℝ) (ha : 1 ≤ a) :
    compute_uncertainty_score (calculate_metrics [a]) = 0 := by
  have hL : 0 < Real.logb 2 (a + 1 / 10000000000) :=
    Real.logb_pos (by norm_num) (by linarith)
  have he : -(a * Real.logb 2 (a + 1 / 10000000000)) < 0 := by nlinarith
  rw [calculate_metrics_single a]
  unfold compute_uncertainty_score
  dsimp only
  rw [min_eq_right (le_of_lt (lt_of_lt_of_le he (by norm_num)))]
  have hraw : (4 / 10 : ℝ) * (1 - a) +
      (2 / 10) * (-(a * Real.logb 2 (a + 1 / 10000000000))) +
      (2 / 10) * min 1 ((0 : ℝ) * 2) + (2 / 10) * 0 ≤ 0 := by
    have hmz : min (1 : ℝ) ((0 : ℝ) * 2) = 0 := by norm_num
    rw [hmz]
    nlinarith
  rw [max_eq_left hraw]
  exact min_eq_right (by norm_num)

/-- The base-2 logarithm of 2 + 1e-10 is below 4/3 (cubing stays below 16). -/
theorem uh_logb_two_bound :
    Real.logb 2 (2 + 1 / 10000000000) < 4 / 3 := by
  have hpow : Real.logb 2 (((2 : ℝ) + 1 / 10000000000) ^ (3 : ℕ)) =
      3 * Real.logb 2 (2 + 1 / 10000000000) := by
    rw [Real.logb_pow]
    norm_num
  have hlt : Real.logb 2 (((2 : ℝ) + 1 / 10000000000) ^ (3 : ℕ)) <
      Real.logb 2 16 := by
    apply Real.logb_lt_logb (by norm_num) (by positivity)
    norm_num
  have h16 : Real.logb 2 (16 : ℝ) = 4 := by
    rw [show (16 : ℝ) = 2 ^ (4 : ℕ) by norm_num, Real.logb_pow,
      Real.logb_self_eq_one (by norm_num)]
    norm_num
  rw [hpow, h16] at hlt
  linarith

/-- The base-2 logarithm of 4 + 1e-10 is at least 2. -/
theorem uh_logb_four_bound :
    2 ≤ Real.logb 2 (4 + 1 / 10000000000) := by
  have h4 : Real.logb 2 (4 : ℝ) = 2 := by
    rw [show (4 : ℝ) = 2 ^ (2 : ℕ) by norm_num, Real.logb_pow,
      Real.logb_self_eq_one (by norm_num)]
    norm_num
  have := Real.logb_le_logb_of_le (by norm_num : (1 : ℝ) < 2)
    (by norm_num : (0 : ℝ) < 4) (by norm_num : (4 : ℝ) ≤ 4 + 1 / 10000000000)
  linarith

/-- C2 counterexample: no fixed constants make the returned uncertainty score
an affine combination of the four computed metrics over all nonempty
prediction lists; the clamps break affinity, falsified at the lists [0], [1],
[2] and [4]. -/
theorem uncertainty_score_not_affine :
    ¬ ∃ w1 w2 w3 w4 c : ℝ, ∀ predictions : List ℝ, predictions ≠ [] →
      (evaluate_uncertainty (7 / 10) predictions ()).1 =
        w1 * (calculate_metrics predictions).confidence_score +
        w2 * (calculate_metrics predictions).entropy +
        w3 * (calculate_metrics predictions).variance +
        w4 * (calculate_metrics predictions).prediction_spread + c := by
  rintro ⟨w1, w2, w3, w4, c, h⟩
  have hL1 : 0 < Real.logb 2 (1 + 1 / 10000000000) :=
    Real.logb_pos (by norm_num) (by norm_num)
  have hL2 : Real.logb 2 (2 + 1 / 10000000000) < 4 / 3 := uh_logb_two_bound
  have hL4 : 2 ≤ Real.logb 2 (4 + 1 / 10000000000) := uh_logb_four_bound
  have h0 := h [0] (by simp)
  have h1 := h [1] (by simp)
  have h2 := h [2] (by simp)
  have h4 := h [4] (by simp)
  rw [evaluate_uncertainty_score_nonempty _ _ _ (by simp), uh_score_zero_list,
    calculate_metrics_single] at h0
  rw [evaluate_uncertainty_score_nonempty _ _ _ (by simp),
    uh_score_single_eq_zero 1 (by norm_num), calculate_metrics_single] at h1
  rw [evaluate_uncertainty_score_nonempty _ _ _ (by simp),
    uh_score_single_eq_zero 2 (by norm_num), calculate_metrics_single] at h2
  rw [evaluate_uncertainty_score_nonempty _ _ _ (by simp),
    uh_score_single_eq_zero 4 (by norm_num), calculate_metrics_single] at h4
  dsimp only at h0 h1 h2 h4
  have hprod : w2 * (-(4 * Real.logb 2 (4 + 1 / 10000000000)) +
      6 * Real.logb 2 (2 + 1 / 10000000000) -
      2 * Real.logb 2 (1 + 1 / 10000000000)) = 0 := by
    linear_combination -h4 + 3 * h2 - 2 * h1
  have hD : -(4 * Real.logb 2 (4 + 1 / 10000000000)) +
      6 * Real.logb 2 (2 + 1 / 10000000000) -
      2 * Real.logb 2 (1 + 1 / 10000000000) < 0 := by linarith
  have hw2 : w2 = 0 := by
    rcases mul_eq_zero.mp hprod with hz | hz
    · exact hz
    · exact absurd hz (ne_of_lt hD)
  subst hw2
  have e1 : (0 : ℝ) = w1 + c := by linear_combination h1
  have e2 : (0 : ℝ) = 2 * w1 + c := by linear_combination h2
  have e0 : (4 / 10 : ℝ) = c := by linear_combination h0
  linarith

/-- C2 amended: the uncertainty score is the clamp to [0, 1] of the fixed
weights 0.4 / 0.2 / 0.2 / 0.2 applied to (1 - confidence), min(1, entropy),
min(1, 2 * variance) and the spread, for every nonempty prediction list. -/
theorem uncertainty_score_clamped_weights {κ : Type} (threshold : ℝ)
    (predictions : List ℝ) (context : κ) (h : predictions ≠ []) :
    (evaluate_uncertainty threshold predictions context).1 =
      min 1 (max 0
        ((4 / 10) * (1 - (calculate_metrics predictions).confidence_score) +
         (2 / 10) * min 1 (calculate_metrics predictions).entropy +
         (2 / 10) * min 1 ((calculate_metrics predictions).variance * 2) +
         (2 / 10) * (calculate_metrics predictions).prediction_spread)) := by
  rw [evaluate_uncertainty_score_nonempty _ _ _ h]
  rfl

/-- Witness for the amended C2 at the singleton prediction list [0]. -/
theorem uncertainty_score_clamped_weights_witness :
    ([(0 : ℝ)] ≠ []) ∧
    (evaluate_uncertainty (7 / 10 : ℝ) [(0 : ℝ)] ()).1 =
      min 1 (max 0
        ((4 / 10) * (1 - (calculate_metrics [(0 : ℝ)]).confidence_score) +
         (2 / 10) * min 1 (calculate_metrics [(0 : ℝ)]).entropy +
         (2 / 10) * min 1 ((calculate_metrics [(0 : ℝ)]).variance * 2) +
         (2 / 10) * (calculate_metrics [(0 : ℝ)]).prediction_spread)) :=
  ⟨by simp, uncertainty_score_clamped_weights (7 / 10) [0] () (by simp)⟩

/-- Pruning at a time not later than T preserves the number of stored
timestamps inside the window (T - 60, T]. -/
theorem cleanup_preserves_window_count (t T : ℚ) (hT : t ≤ T) (s : List ℚ) :
    (cleanup_old_requests t s).countP
        (fun x => decide (T - 60 < x) && decide (x ≤ T)) =
      s.countP (fun x => decide (T - 60 < x) && decide (x ≤ T)) := by
  unfold cleanup_old_requests
  rw [List.countP_filter]
  apply List.countP_congr
  intro a _
  by_cases h1 : T - 60 < a
  · by_cases h2 : a ≤ T
    · have hq : t - 60 < a := by linarith
      simp [h1, h2, hq]
    · simp [h2]
  · simp [h1]

/-- Filtering an already pruned list with the same one-minute predicate
changes nothing. -/
theorem cleanup_filter_idem (now : ℚ) (s : List ℚ) :
    (cleanup_old_requests now s).filter (fun req => decide (now - 60 < req)) =
      cleanup_old_requests now s := by
  unfold cleanup_old_requests
  rw [List.filter_filter]
  simp

/-- check_limit accepts exactly when the pruned list is below both limits,
and then records the call time. -/
theorem check_limit_eq_true (b r : ℕ) (now : ℚ) (s : List ℚ)
    (h1 : (cleanup_old_requests now s).length < b)
    (h2 : (cleanup_old_requests now s).length < r) :
    check_limit b r now s = (true, cleanup_old_requests now s ++ [now]) := by
  simp only [check_limit]
  rw [cleanup_filter_idem]
  rw [if_neg (by omega), if_neg (by omega)]

/-- check_limit refuses when the pruned list reaches either limit, and then
returns the pruned list unchanged. -/
theorem check_limit_eq_false (b r : ℕ) (now : ℚ) (s : List ℚ)
    (h : ¬ ((cleanup_old_requests now s).length < b ∧
        (cleanup_old_requests now s).length < r)) :
    check_limit b r now s = (false, cleanup_old_requests now s) := by
  simp only [check_limit]
  rw [cleanup_filter_idem]
  split_ifs with hb hr
  · rfl
  · rfl
  · exact absurd ⟨by omega, by omega⟩ h

/-- A run visits exactly the given call times, in order. -/
theorem run_limiter_times (b r : ℕ) (ts : List ℚ) : ∀ s : List ℚ,
    (run_limiter b r ts s).1.map Prod.fst = ts := by
  induction ts with
  | nil => intro s; rfl
  | cons t ts ih => intro s; simp [run_limiter, ih]

/-- Rolling-window invariant for a run of check_limit calls: with
nondecreasing call times bounding the stored timestamps from above, either
the accepted calls inside the window (T - 60, T] together with the stored
window timestamps stay within min burst rate, or no call of the run is
accepted inside the window. -/
theorem run_limiter_window_aux (b r : ℕ) (T : ℚ) (ts : List ℚ) : ∀ s : List ℚ,
    ts.Pairwise (· ≤ ·) →
    (∀ x ∈ s, ∀ u ∈ ts, x ≤ u) →
    (run_limiter b r ts s).1.countP
        (fun p => (decide (T - 60 < p.1) && decide (p.1 ≤ T)) && p.2) +
      s.countP (fun x => decide (T - 60 < x) && decide (x ≤ T)) ≤ min b r ∨
    (run_limiter b r ts s).1.countP
        (fun p => (decide (T - 60 < p.1) && decide (p.1 ≤ T)) && p.2) = 0 := by
  induction ts with
  | nil =>
    intro s _ _
    right
    rfl
  | cons t ts ih =>
    intro s hpair hpast
    obtain ⟨hhead, htail⟩ := List.pairwise_cons.mp hpair
    by_cases hT : t ≤ T
    · by_cases hcond : (cleanup_old_requests t s).length < b ∧
          (cleanup_old_requests t s).length < r
      · -- accepted call
        have hstep := check_limit_eq_true b r t s hcond.1 hcond.2
        have hpast2 : ∀ x ∈ cleanup_old_requests t s ++ [t], ∀ u ∈ ts, x ≤ u := by
          intro x hx u hu
          rcases List.mem_append.mp hx with hx | hx
          · exact hpast x (List.mem_of_mem_filter hx) u (List.mem_cons_of_mem _ hu)
          · rw [List.mem_singleton.mp hx]
            exact hhead u hu
        have hcnt2 : (cleanup_old_requests t s ++ [t]).countP
              (fun x => decide (T - 60 < x) && decide (x ≤ T)) =
            s.countP (fun x => decide (T - 60 < x) && decide (x ≤ T)) +
              (if (decide (T - 60 < t) && decide (t ≤ T)) = true then 1 else 0) := by
          rw [List.countP_append, cleanup_preserves_window_count t T hT]
          simp [List.countP_cons]
        have hrun : run_limiter b r (t :: ts) s =
            ((t, true) ::
              (run_limiter b r ts (cleanup_old_requests t s ++ [t])).1,
             (run_limiter b r ts (cleanup_old_requests t s ++ [t])).2) := by
          simp [run_limiter, hstep]
        have hwcount : s.countP (fun x => decide (T - 60 < x) && decide (x ≤ T)) ≤
            (cleanup_old_requests t s).length := by
          rw [← cleanup_preserves_window_count t T hT]
          exact List.countP_le_length _
        have hite : (if (decide (T - 60 < t) && decide (t ≤ T)) = true
            then 1 else 0) ≤ 1 := by
          split_ifs <;> omega
        rw [hrun]
        simp only [List.countP_cons]
        have hhd : (if ((decide (T - 60 < t) && decide (t ≤ T)) && true) = true
            then 1 else 0) =
            (if (decide (T - 60 < t) && decide (t ≤ T)) = true then 1 else 0) := by
          simp
        rcases ih (cleanup_old_requests t s ++ [t]) htail hpast2 with hle | hzero
        · left
          rw [hcnt2] at hle
          omega
        · left
          rw [hzero]
          omega
      · -- refused call
        have hstep := check_limit_eq_false b r t s hcond
        have hpast2 : ∀ x ∈ cleanup_old_requests t s, ∀ u ∈ ts, x ≤ u := by
          intro x hx u hu
          exact hpast x (List.mem_of_mem_filter hx) u (List.mem_cons_of_mem _ hu)
        have hrun : run_limiter b r (t :: ts) s =
            ((t, false) ::
              (run_limiter b r ts (cleanup_old_requests t s)).1,
             (run_limiter b r ts (cleanup_old_requests t s)).2) := by
          simp [run_limiter, hstep]
        rw [hrun]
        simp only [List.countP_cons]
        rcases ih (cleanup_old_requests t s) htail hpast2 with hle | hzero
        · left
          rw [cleanup_preserves_window_count t T hT] at hle
          simp only [Bool.and_false, Bool.false_eq_true, if_false]
          omega
        · right
          rw [hzero]
          simp
    · -- the call time is already past the window end, as is every later one
      right
      rw [List.countP_eq_zero]
      intro a ha
      have hmem : a.1 ∈ (run_limiter b r (t :: ts) s).1.map Prod.fst :=
        List.mem_map_of_mem Prod.fst ha
      rw [run_limiter_times] at hmem
      have hgt : T < a.1 := by
        rcases List.mem_cons.mp hmem with h | h
        · rw [h]
          exact not_le.mp hT
        · exact lt_of_lt_of_le (not_le.mp hT) (hhead a.1 h)
      have hna : ¬ a.1 ≤ T := not_le.mpr hgt
      simp [hna]

/-- C10: starting from a fresh user, a run of check_limit calls at
nondecreasing times returns True at most min(burst_limit, rate_limit) times
inside any rolling one-minute window (T - 60, T], and a refused call records
no new timestamp: its only state change is the pruning of entries older than
one minute. -/
theorem rate_limiter_rolling_window (burst_limit rate_limit : ℕ)
    (times : List ℚ) (hmono : times.Pairwise (· ≤ ·)) (T now : ℚ)
    (requests : List ℚ) :
    (run_limiter burst_limit rate_limit times []).1.countP
        (fun p => (decide (T - 60 < p.1) && decide (p.1 ≤ T)) && p.2) ≤
      min burst_limit rate_limit ∧
    ((check_limit burst_limit rate_limit now requests).1 = false →
      (check_limit burst_limit rate_limit now requests).2 =
        cleanup_old_requests now requests) := by
  constructor
  · rcases run_limiter_window_aux burst_limit rate_limit T times []
        hmono (by simp) with h | h
    · simpa using h
    · rw [h]
      omega
  · intro hfalse
    by_cases hcond : (cleanup_old_requests now requests).length < burst_limit ∧
        (cleanup_old_requests now requests).length < rate_limit
    · rw [check_limit_eq_true _ _ _ _ hcond.1 hcond.2] at hfalse
      simp at hfalse
    · rw [check_limit_eq_false _ _ _ _ hcond]

/-- Witness for C10: two calls at times 0 and 10 with both limits equal to 1
accept at most once inside the window ending at 10, and a refused call at
time 70 on a saturated list only prunes. -/
theorem rate_limiter_rolling_window_witness :
    ([(0 : ℚ), 10] : List ℚ).Pairwise (· ≤ ·) ∧
    ((run_limiter 1 1 [(0 : ℚ), 10] []).1.countP
        (fun p => (decide ((10 : ℚ) - 60 < p.1) && decide (p.1 ≤ (10 : ℚ))) &&
          p.2) ≤ min 1 1 ∧
      ((check_limit 1 1 (70 : ℚ) [(0 : ℚ), 65]).1 = false →
        (check_limit 1 1 (70 : ℚ) [(0 : ℚ), 65]).2 =
          cleanup_old_requests 70 [(0 : ℚ), 65])) :=
  ⟨by decide,
   rate_limiter_rolling_window 1 1 [0, 10] (by decide) 10 70 [0, 65]⟩
